import Mathlib

/-!
Shallow embedding of the mentor-matching scoring engine of
`app/api/v1/mentoring.py` (plimate-server).

Conventions of the embedding:
* Python sets of enum-tag strings become `Finset String`; a missing or
  `None` mentor attribute (`mentor.get(k) or []`) becomes the empty set.
* Python `float` arithmetic is modelled exactly over `ℚ`; `round(x, 4)`
  becomes `round4` (round-half-to-even at the fourth decimal, Python's
  rounding mode).
* The fallible scorer (`return None` on the availability hard gates)
  returns `Option`.
* `list.sort(key=score, reverse=True)` is a stable descending sort; a
  stable sort w.r.t. a total preorder is unique, so it is modelled by
  `List.insertionSort` with the relation "score of the left is ≥ score of
  the right".
-/

namespace Plimate

open List

/-- Python's `round` to an integer: round half to even (banker's rounding). -/
def roundHalfEven (x : ℚ) : ℤ :=
  if Int.fract x < 1/2 then ⌊x⌋
  else if 1/2 < Int.fract x then ⌊x⌋ + 1
  else if ⌊x⌋ % 2 = 0 then ⌊x⌋ else ⌊x⌋ + 1

/-- Python's `round(x, 4)`. -/
def round4 (x : ℚ) : ℚ := (roundHalfEven (x * 10000) : ℚ) / 10000

/-- A `mentor_matching_surveys` row as consumed by the scorer (mentee side). -/
structure MenteeSurvey where
  fields : Finset String
  frequency : String
  available_days : Finset String
  time_slots : Finset String
  methods : Finset String
  communication_styles : Finset String
  mentoring_focuses : Finset String
deriving DecidableEq

/-- A `mentor_details` row as consumed by the scorer (mentor side); a missing
attribute is the empty set. -/
structure MentorDetails where
  fields : Finset String
  frequency : Finset String
  available_days : Finset String
  time_slots : Finset String
  methods : Finset String
  communication_styles : Finset String
  mentoring_focuses : Finset String
deriving DecidableEq

/-- The seven per-dimension sub-scores (`MatchScoreBreakdown` schema). -/
structure MatchScoreBreakdown where
  fields : ℚ
  frequency : ℚ
  available_days : ℚ
  time_slots : ℚ
  methods : ℚ
  communication_styles : ℚ
  mentoring_focuses : ℚ
deriving DecidableEq

/-- Source `_WEIGHTS["fields"]`. -/
def W_fields : ℚ := 35/100
/-- Source `_WEIGHTS["frequency"]`. -/
def W_frequency : ℚ := 15/100
/-- Source `_WEIGHTS["methods"]`. -/
def W_methods : ℚ := 15/100
/-- Source `_WEIGHTS["communication_styles"]`. -/
def W_communication_styles : ℚ := 20/100
/-- Source `_WEIGHTS["mentoring_focuses"]`. -/
def W_mentoring_focuses : ℚ := 15/100

/-- Source `_MIN_MATCH_SCORE`. -/
def MIN_MATCH_SCORE : ℚ := 3/10

/-- Source `_NEW_MENTOR_BOOST`. -/
def NEW_MENTOR_BOOST : ℚ := 10/100

/-- Source `_MENTEE_CAP`. -/
def MENTEE_CAP : ℚ := 5

/-- The recurring pattern `len(a & b) / len(a) if a else 0.0`. -/
def coverage (a b : Finset String) : ℚ :=
  if a.Nonempty then ((a ∩ b).card : ℚ) / (a.card : ℚ) else 0

/-- Source `frequency_score`: `1.0 if mentee["frequency"] in mentor_freq else 0.0`. -/
def frequencyScore (mentee : MenteeSurvey) (mentor : MentorDetails) : ℚ :=
  if mentee.frequency ∈ mentor.frequency then 1 else 0

/-- Source `methods_score`: FLEXIBLE acts as wildcard, else binary overlap. -/
def methodsScore (mentee : MenteeSurvey) (mentor : MentorDetails) : ℚ :=
  if "FLEXIBLE" ∈ mentee.methods ∨ "FLEXIBLE" ∈ mentor.methods then 1
  else if (mentee.methods ∩ mentor.methods).Nonempty then 1 else 0

/-- The `scores` dict of `_compute_match_score`: each raw sub-score rounded
to 4 decimals. -/
def mkScores (mentee : MenteeSurvey) (mentor : MentorDetails) :
    MatchScoreBreakdown where
  fields := round4 (coverage mentee.fields mentor.fields)
  frequency := round4 (frequencyScore mentee mentor)
  available_days := round4 (coverage mentee.available_days mentor.available_days)
  time_slots := round4 (coverage mentee.time_slots mentor.time_slots)
  methods := round4 (methodsScore mentee mentor)
  communication_styles :=
    round4 (coverage mentee.communication_styles mentor.communication_styles)
  mentoring_focuses :=
    round4 (coverage mentee.mentoring_focuses mentor.mentoring_focuses)

/-- Source `total = round(sum(_WEIGHTS[k] * scores[k] for k in _WEIGHTS), 4)`:
the five weighted dimensions, over the already-rounded sub-scores. -/
def totalOf (b : MatchScoreBreakdown) : ℚ :=
  round4 (W_fields * b.fields + W_frequency * b.frequency
    + W_methods * b.methods
    + W_communication_styles * b.communication_styles
    + W_mentoring_focuses * b.mentoring_focuses)

/-- Source `_compute_match_score(mentee, mentor)`: `None` iff an availability hard
gate fails, else the weighted total together with the breakdown. -/
def compute_match_score (mentee : MenteeSurvey) (mentor : MentorDetails) :
    Option (ℚ × MatchScoreBreakdown) :=
  if mentee.available_days.Nonempty ∧
      mentee.available_days ∩ mentor.available_days = ∅ then none
  else if mentee.time_slots.Nonempty ∧
      mentee.time_slots ∩ mentor.time_slots = ∅ then none
  else some (totalOf (mkScores mentee mentor), mkScores mentee mentor)

/-- One row of the mentors query (`users` joined with `mentor_details`);
`mentor_details` is `none` when the mentor never filled a profile in. The
opaque display columns (name, avatar, …) are irrelevant to scoring and
omitted. -/
structure MentorRow where
  id : ℕ
  mentor_details : Option MentorDetails
deriving DecidableEq

/-- A `MentorRecommendationCard`, restricted to the scoring-relevant fields
(the remaining fields are display data copied through unchanged). -/
structure MentorRecommendationCard where
  mentor_id : ℕ
  match_score : ℚ
  score_breakdown : MatchScoreBreakdown
deriving DecidableEq

/-- Source `boost = _NEW_MENTOR_BOOST * max(0.0, 1.0 - active / _MENTEE_CAP)` and
`boosted_score = min(1.0, total + boost)`. -/
def boostedScore (total : ℚ) (active : ℕ) : ℚ :=
  min 1 (total + NEW_MENTOR_BOOST * max 0 (1 - (active : ℚ) / MENTEE_CAP))

/-- The body of the scoring loop of `get_mentor_recommendations` for one
mentor row: `none` when the row is skipped (`continue`), otherwise the
`(boosted_score, card)` pair appended to `scored`. `cnt` is the
`mentee_count` map (`mentee_count.get(row["id"], 0)`). -/
def scoreRow (mentee : MenteeSurvey) (cnt : ℕ → ℕ) (row : MentorRow) :
    Option (ℚ × MentorRecommendationCard) :=
  row.mentor_details.bind fun details =>
    if details.fields = ∅ then none
    else
      (compute_match_score mentee details).bind fun tb =>
        if tb.1 < MIN_MATCH_SCORE then none
        else
          some (boostedScore tb.1 (cnt row.id),
            { mentor_id := row.id
              match_score := boostedScore tb.1 (cnt row.id)
              score_breakdown := tb.2 })

/-- Comparison used by `scored.sort(key=lambda x: x[0], reverse=True)`:
left comes no later than right iff its score is ≥. -/
def scoreRel (a b : ℚ × MentorRecommendationCard) : Prop := b.1 ≤ a.1

instance : DecidableRel scoreRel := fun a b =>
  inferInstanceAs (Decidable (b.1 ≤ a.1))

instance : IsTotal (ℚ × MentorRecommendationCard) scoreRel :=
  ⟨fun a b => le_total b.1 a.1⟩

instance : IsTrans (ℚ × MentorRecommendationCard) scoreRel :=
  ⟨fun _ _ _ h1 h2 => le_trans h2 h1⟩

/-- Python's `list.sort` is stable; a stable sort w.r.t. a total preorder is
unique, so the descending stable sort is modelled by `insertionSort`. -/
def sortDesc (l : List (ℚ × MentorRecommendationCard)) :
    List (ℚ × MentorRecommendationCard) :=
  l.insertionSort scoreRel

/-- Source `get_mentor_recommendations` from the mentors query onward: score every
row, sort by boosted score descending, paginate with `scored[offset :
offset+limit]`, and return the page together with the pre-pagination
survivor count. -/
def get_mentor_recommendations (mentee : MenteeSurvey)
    (mentors : List MentorRow) (cnt : ℕ → ℕ) (limit offset : ℕ) :
    List MentorRecommendationCard × ℕ :=
  if mentors = [] then ([], 0)
  else
    let scored := mentors.filterMap (scoreRow mentee cnt)
    let sorted := sortDesc scored
    (((sorted.drop offset).take limit).map Prod.snd, scored.length)

/-! Concrete records used to exercise the definitions (witness data). -/

/-- A mentee survey: one field, FLEXIBLE methods. -/
def menteeEx : MenteeSurvey where
  fields := {"CAREER"}
  frequency := "MONTHLY"
  available_days := {"MON"}
  time_slots := {"MORNING"}
  methods := {"FLEXIBLE"}
  communication_styles := {"DIRECT"}
  mentoring_focuses := {"PRACTICE"}

/-- A mentor matching `menteeEx` on every dimension (methods via the
mentee-side FLEXIBLE wildcard). -/
def mentorEx : MentorDetails where
  fields := {"CAREER"}
  frequency := {"MONTHLY"}
  available_days := {"MON"}
  time_slots := {"MORNING"}
  methods := {"OFFLINE"}
  communication_styles := {"DIRECT"}
  mentoring_focuses := {"PRACTICE"}

/-- A mentor whose available days do not intersect `menteeEx`'s. -/
def mentorGate : MentorDetails where
  fields := {"CAREER"}
  frequency := {"MONTHLY"}
  available_days := {"TUE"}
  time_slots := {"MORNING"}
  methods := {"OFFLINE"}
  communication_styles := {"DIRECT"}
  mentoring_focuses := {"PRACTICE"}

/-- A mentee survey wanting two fields. -/
def menteeTwo : MenteeSurvey where
  fields := {"CAREER", "STUDY"}
  frequency := "MONTHLY"
  available_days := {"MON"}
  time_slots := {"MORNING"}
  methods := {"ONLINE"}
  communication_styles := {"DIRECT"}
  mentoring_focuses := {"PRACTICE"}

/-- A mentor covering half of `menteeTwo`'s fields, everything else matching. -/
def mentorHalf : MentorDetails where
  fields := {"CAREER"}
  frequency := {"MONTHLY"}
  available_days := {"MON"}
  time_slots := {"MORNING"}
  methods := {"ONLINE"}
  communication_styles := {"DIRECT"}
  mentoring_focuses := {"PRACTICE"}

/-- A mentor matching `menteeTwo` only on half the fields dimension:
pre-boost total `0.175 < 0.3`. -/
def mentorLow : MentorDetails where
  fields := {"CAREER"}
  frequency := {"WEEKLY"}
  available_days := {"MON"}
  time_slots := {"MORNING"}
  methods := {"OFFLINE"}
  communication_styles := {"SOFT"}
  mentoring_focuses := {"THEORY"}

/-- A mentor matching `menteeTwo` on frequency and methods only:
pre-boost total exactly `0.3`. -/
def mentorThr : MentorDetails where
  fields := {"OTHER"}
  frequency := {"MONTHLY"}
  available_days := {"MON"}
  time_slots := {"MORNING"}
  methods := {"ONLINE"}
  communication_styles := {"SOFT"}
  mentoring_focuses := {"THEORY"}

/-- All-ones breakdown (perfect match). -/
def bkOnes : MatchScoreBreakdown := ⟨1, 1, 1, 1, 1, 1, 1⟩

/-- Breakdown of `menteeTwo` vs `mentorHalf`. -/
def bkHalf : MatchScoreBreakdown := ⟨1/2, 1, 1, 1, 1, 1, 1⟩

/-- Breakdown of `menteeTwo` vs `mentorLow`. -/
def bkLow : MatchScoreBreakdown := ⟨1/2, 0, 1, 1, 0, 0, 0⟩

/-- Breakdown of `menteeTwo` vs `mentorThr`. -/
def bkThr : MatchScoreBreakdown := ⟨0, 1, 1, 1, 1, 0, 0⟩

/-- The `mentee_count` map of a fresh platform: no accepted requests. -/
def cnt0 : ℕ → ℕ := fun _ => 0

/-- A `mentee_count` map with every mentor at the cap. -/
def cnt5 : ℕ → ℕ := fun _ => 5

/-- Mentor rows for the ranker examples. -/
def rowEx : MentorRow := ⟨1, some mentorEx⟩

/-- A second row with the same profile as `rowEx` but another id. -/
def rowEx2 : MentorRow := ⟨7, some mentorEx⟩

/-- A row failing the availability gate against `menteeEx`. -/
def rowGate : MentorRow := ⟨2, some mentorGate⟩

/-- A mentor who never filled in a profile. -/
def rowNoDetails : MentorRow := ⟨3, none⟩

/-- Half-fields-coverage row for `menteeTwo`. -/
def rowHalf : MentorRow := ⟨4, some mentorHalf⟩

/-- Below-threshold row for `menteeTwo`. -/
def rowLow : MentorRow := ⟨5, some mentorLow⟩

/-- Exactly-at-threshold row for `menteeTwo`. -/
def rowThr : MentorRow := ⟨6, some mentorThr⟩

/-- The card `scoreRow menteeEx cnt0 rowEx` produces. -/
def cardEx : MentorRecommendationCard := ⟨1, 1, bkOnes⟩

/-- The card `scoreRow menteeEx cnt0 rowEx2` produces. -/
def cardEx2 : MentorRecommendationCard := ⟨7, 1, bkOnes⟩

/-! Helper lemmas: rounding. -/

theorem roundHalfEven_intCast (n : ℤ) : roundHalfEven (n : ℚ) = n := by
  unfold roundHalfEven
  rw [Int.fract_intCast, Int.floor_intCast]
  norm_num

theorem round4_int_div (k : ℤ) : round4 ((k : ℚ) / 10000) = (k : ℚ) / 10000 := by
  unfold round4
  rw [div_mul_cancel₀ _ (by norm_num : (10000 : ℚ) ≠ 0), roundHalfEven_intCast]

theorem round4_one : round4 1 = 1 := by
  have h := round4_int_div 10000
  norm_num at h
  exact h

theorem round4_zero : round4 0 = 0 := by
  have h := round4_int_div 0
  norm_num at h
  exact h

theorem round4_half : round4 (1/2) = 1/2 := by
  have h := round4_int_div 5000
  norm_num at h
  exact h

theorem roundHalfEven_nonneg {x : ℚ} (h : 0 ≤ x) : 0 ≤ roundHalfEven x := by
  have hf : (0 : ℤ) ≤ ⌊x⌋ := Int.floor_nonneg.mpr h
  unfold roundHalfEven
  split_ifs <;> omega

theorem roundHalfEven_le_int {x : ℚ} {n : ℤ} (h : x ≤ n) : roundHalfEven x ≤ n := by
  have hf : ⌊x⌋ ≤ n := Int.cast_le.mp (le_trans (Int.floor_le x) h)
  have hlt : ¬ Int.fract x < 1/2 → ⌊x⌋ < n := by
    intro hfr
    rcases lt_or_eq_of_le hf with h1 | h1
    · exact h1
    · exfalso
      have hxn : (n : ℚ) ≤ x := Int.le_floor.mp (le_of_eq h1.symm)
      have hxe : x = (n : ℚ) := le_antisymm h hxn
      rw [hxe, Int.fract_intCast] at hfr
      norm_num at hfr
  unfold roundHalfEven
  split_ifs with h1 h2 h3
  · exact hf
  · have := hlt h1; omega
  · exact hf
  · have := hlt h1; omega

theorem round4_nonneg {x : ℚ} (h : 0 ≤ x) : 0 ≤ round4 x := by
  unfold round4
  have h1 : (0 : ℤ) ≤ roundHalfEven (x * 10000) :=
    roundHalfEven_nonneg (by positivity)
  positivity

theorem round4_le_one {x : ℚ} (h : x ≤ 1) : round4 x ≤ 1 := by
  unfold round4
  have h1 : roundHalfEven (x * 10000) ≤ (10000 : ℤ) :=
    roundHalfEven_le_int (by push_cast; nlinarith)
  rw [div_le_one (by norm_num : (0:ℚ) < 10000)]
  exact_mod_cast h1

/-! Helper lemmas: per-dimension sub-scores. -/

theorem coverage_nonneg (a b : Finset String) : 0 ≤ coverage a b := by
  unfold coverage
  split_ifs <;> positivity

theorem coverage_le_one (a b : Finset String) : coverage a b ≤ 1 := by
  unfold coverage
  split_ifs with h
  · have hb : (0 : ℚ) < (a.card : ℚ) := by
      exact_mod_cast Finset.card_pos.mpr h
    rw [div_le_one hb]
    exact_mod_cast Finset.card_le_card Finset.inter_subset_left
  · norm_num

theorem coverage_full {a b : Finset String} (h : a.Nonempty) (hsub : a ⊆ b) :
    coverage a b = 1 := by
  unfold coverage
  rw [if_pos h, Finset.inter_eq_left.mpr hsub]
  have hb : (a.card : ℚ) ≠ 0 := by
    have := Finset.card_pos.mpr h
    positivity
  exact div_self hb

theorem frequencyScore_cases (mentee : MenteeSurvey) (mentor : MentorDetails) :
    frequencyScore mentee mentor = 0 ∨ frequencyScore mentee mentor = 1 := by
  unfold frequencyScore
  split_ifs <;> simp

theorem methodsScore_cases (mentee : MenteeSurvey) (mentor : MentorDetails) :
    methodsScore mentee mentor = 0 ∨ methodsScore mentee mentor = 1 := by
  unfold methodsScore
  split_ifs <;> simp

theorem round4_unit {x : ℚ} (h0 : 0 ≤ x) (h1 : x ≤ 1) :
    0 ≤ round4 x ∧ round4 x ≤ 1 :=
  ⟨round4_nonneg h0, round4_le_one h1⟩

theorem round4_unit_of_cases {x : ℚ} (h : x = 0 ∨ x = 1) :
    0 ≤ round4 x ∧ round4 x ≤ 1 := by
  rcases h with h | h <;> subst h <;>
    exact round4_unit (by norm_num) (by norm_num)

theorem mkScores_unit (mentee : MenteeSurvey) (mentor : MentorDetails) :
    (0 ≤ (mkScores mentee mentor).fields ∧ (mkScores mentee mentor).fields ≤ 1) ∧
    (0 ≤ (mkScores mentee mentor).frequency ∧
      (mkScores mentee mentor).frequency ≤ 1) ∧
    (0 ≤ (mkScores mentee mentor).available_days ∧
      (mkScores mentee mentor).available_days ≤ 1) ∧
    (0 ≤ (mkScores mentee mentor).time_slots ∧
      (mkScores mentee mentor).time_slots ≤ 1) ∧
    (0 ≤ (mkScores mentee mentor).methods ∧
      (mkScores mentee mentor).methods ≤ 1) ∧
    (0 ≤ (mkScores mentee mentor).communication_styles ∧
      (mkScores mentee mentor).communication_styles ≤ 1) ∧
    (0 ≤ (mkScores mentee mentor).mentoring_focuses ∧
      (mkScores mentee mentor).mentoring_focuses ≤ 1) := by
  unfold mkScores
  exact ⟨round4_unit (coverage_nonneg _ _) (coverage_le_one _ _),
    round4_unit_of_cases (frequencyScore_cases mentee mentor),
    round4_unit (coverage_nonneg _ _) (coverage_le_one _ _),
    round4_unit (coverage_nonneg _ _) (coverage_le_one _ _),
    round4_unit_of_cases (methodsScore_cases mentee mentor),
    round4_unit (coverage_nonneg _ _) (coverage_le_one _ _),
    round4_unit (coverage_nonneg _ _) (coverage_le_one _ _)⟩

theorem totalOf_unit {b : MatchScoreBreakdown}
    (hf : 0 ≤ b.fields ∧ b.fields ≤ 1) (hq : 0 ≤ b.frequency ∧ b.frequency ≤ 1)
    (hm : 0 ≤ b.methods ∧ b.methods ≤ 1)
    (hc : 0 ≤ b.communication_styles ∧ b.communication_styles ≤ 1)
    (ho : 0 ≤ b.mentoring_focuses ∧ b.mentoring_focuses ≤ 1) :
    0 ≤ totalOf b ∧ totalOf b ≤ 1 := by
  unfold totalOf W_fields W_frequency W_methods W_communication_styles
    W_mentoring_focuses
  constructor
  · apply round4_nonneg
    nlinarith [hf.1, hq.1, hm.1, hc.1, ho.1]
  · apply round4_le_one
    nlinarith [hf.2, hq.2, hm.2, hc.2, ho.2]

/-! Helper lemmas: scorer inversion. -/

theorem compute_none_iff (mentee : MenteeSurvey) (mentor : MentorDetails) :
    compute_match_score mentee mentor = none ↔
      (mentee.available_days.Nonempty ∧
        mentee.available_days ∩ mentor.available_days = ∅) ∨
      (mentee.time_slots.Nonempty ∧
        mentee.time_slots ∩ mentor.time_slots = ∅) := by
  unfold compute_match_score
  split_ifs with h1 h2
  · exact iff_of_true rfl (Or.inl h1)
  · exact iff_of_true rfl (Or.inr h2)
  · exact iff_of_false (by simp) (by tauto)

theorem compute_some {mentee : MenteeSurvey} {mentor : MentorDetails}
    {t : ℚ} {b : MatchScoreBreakdown}
    (h : compute_match_score mentee mentor = some (t, b)) :
    t = totalOf (mkScores mentee mentor) ∧ b = mkScores mentee mentor := by
  unfold compute_match_score at h
  split_ifs at h
  simp only [Option.some.injEq, Prod.mk.injEq] at h
  exact ⟨h.1.symm, h.2.symm⟩

theorem compute_some_of {mentee : MenteeSurvey} {mentor : MentorDetails}
    (hg1 : ¬(mentee.available_days.Nonempty ∧
      mentee.available_days ∩ mentor.available_days = ∅))
    (hg2 : ¬(mentee.time_slots.Nonempty ∧
      mentee.time_slots ∩ mentor.time_slots = ∅)) :
    compute_match_score mentee mentor =
      some (totalOf (mkScores mentee mentor), mkScores mentee mentor) := by
  unfold compute_match_score
  rw [if_neg hg1, if_neg hg2]

theorem compute_total_unit {mentee : MenteeSurvey} {mentor : MentorDetails}
    {t : ℚ} {b : MatchScoreBreakdown}
    (h : compute_match_score mentee mentor = some (t, b)) : 0 ≤ t ∧ t ≤ 1 := by
  obtain ⟨ht, _⟩ := compute_some h
  subst ht
  obtain ⟨hf, hq, _, _, hm, hc, ho⟩ := mkScores_unit mentee mentor
  exact totalOf_unit hf hq hm hc ho

/-! Helper lemmas: the new-mentor boost. -/

theorem boost_nonneg (a : ℕ) :
    0 ≤ NEW_MENTOR_BOOST * max 0 (1 - (a : ℚ) / MENTEE_CAP) := by
  unfold NEW_MENTOR_BOOST
  positivity

theorem boostedScore_le_one (t : ℚ) (a : ℕ) : boostedScore t a ≤ 1 :=
  min_le_left 1 _

theorem boostedScore_nonneg {t : ℚ} (ht : 0 ≤ t) (a : ℕ) :
    0 ≤ boostedScore t a :=
  le_min (by norm_num) (by nlinarith [boost_nonneg a])

theorem le_boostedScore {t : ℚ} (ht : t ≤ 1) (a : ℕ) : t ≤ boostedScore t a :=
  le_min ht (by nlinarith [boost_nonneg a])

theorem boostedScore_zero_active (t : ℚ) :
    boostedScore t 0 = min 1 (t + 10/100) := by
  unfold boostedScore NEW_MENTOR_BOOST MENTEE_CAP
  norm_num

theorem boostedScore_at_cap {t : ℚ} (ht : t ≤ 1) {a : ℕ} (ha : 5 ≤ a) :
    boostedScore t a = t := by
  unfold boostedScore NEW_MENTOR_BOOST MENTEE_CAP
  have h5 : (5 : ℚ) ≤ (a : ℚ) := by exact_mod_cast ha
  have h1 : (1 : ℚ) ≤ (a : ℚ) / 5 := by
    rw [le_div_iff₀ (by norm_num : (0:ℚ) < 5)]
    linarith
  rw [max_eq_left (by linarith)]
  rw [mul_zero, add_zero]
  exact min_eq_right ht

theorem scoreRow_of_none {mentee : MenteeSurvey} {cnt : ℕ → ℕ} {row : MentorRow}
    (hd : row.mentor_details = none) : scoreRow mentee cnt row = none := by
  unfold scoreRow
  rw [hd, Option.none_bind]

theorem scoreRow_of_empty_fields {mentee : MenteeSurvey} {cnt : ℕ → ℕ}
    {row : MentorRow} {d : MentorDetails} (hd : row.mentor_details = some d)
    (hf : d.fields = ∅) : scoreRow mentee cnt row = none := by
  unfold scoreRow
  rw [hd, Option.some_bind, if_pos hf]

theorem scoreRow_of_hard_fail {mentee : MenteeSurvey} {cnt : ℕ → ℕ}
    {row : MentorRow} {d : MentorDetails} (hd : row.mentor_details = some d)
    (hc : compute_match_score mentee d = none) :
    scoreRow mentee cnt row = none := by
  unfold scoreRow
  rw [hd, Option.some_bind]
  split_ifs with hf
  · rfl
  · rw [hc, Option.none_bind]

theorem scoreRow_of_low {mentee : MenteeSurvey} {cnt : ℕ → ℕ}
    {row : MentorRow} {d : MentorDetails} {t : ℚ} {b : MatchScoreBreakdown}
    (hd : row.mentor_details = some d)
    (hc : compute_match_score mentee d = some (t, b))
    (hmin : t < MIN_MATCH_SCORE) : scoreRow mentee cnt row = none := by
  unfold scoreRow
  rw [hd, Option.some_bind]
  split_ifs with hf
  · rfl
  · rw [hc, Option.some_bind]
    exact if_pos hmin

theorem scoreRow_of_survivor {mentee : MenteeSurvey} {cnt : ℕ → ℕ}
    {row : MentorRow} {d : MentorDetails} {t : ℚ} {b : MatchScoreBreakdown}
    (hd : row.mentor_details = some d) (hf : d.fields ≠ ∅)
    (hc : compute_match_score mentee d = some (t, b))
    (hmin : ¬ t < MIN_MATCH_SCORE) :
    scoreRow mentee cnt row = some (boostedScore t (cnt row.id),
      ⟨row.id, boostedScore t (cnt row.id), b⟩) := by
  unfold scoreRow
  rw [hd, Option.some_bind, if_neg hf, hc, Option.some_bind]
  exact if_neg hmin

theorem scoreRow_some {mentee : MenteeSurvey} {cnt : ℕ → ℕ} {row : MentorRow}
    {p : ℚ × MentorRecommendationCard} (h : scoreRow mentee cnt row = some p) :
    ∃ d t b, row.mentor_details = some d ∧ d.fields ≠ ∅ ∧
      compute_match_score mentee d = some (t, b) ∧ ¬ t < MIN_MATCH_SCORE ∧
      p = (boostedScore t (cnt row.id),
        ⟨row.id, boostedScore t (cnt row.id), b⟩) := by
  unfold scoreRow at h
  cases hd : row.mentor_details with
  | none => rw [hd, Option.none_bind] at h; simp at h
  | some d =>
    rw [hd, Option.some_bind] at h
    split_ifs at h with hf
    cases hc : compute_match_score mentee d with
    | none => rw [hc, Option.none_bind] at h; simp at h
    | some tb =>
      obtain ⟨t, b⟩ := tb
      rw [hc, Option.some_bind] at h
      split_ifs at h with hmin
      simp only [Option.some.injEq] at h
      exact ⟨d, t, b, rfl, hf, hc, hmin, h.symm⟩

theorem boostedScore_antitone (t : ℚ) {a1 a2 : ℕ} (h : a1 ≤ a2) :
    boostedScore t a2 ≤ boostedScore t a1 := by
  unfold boostedScore NEW_MENTOR_BOOST MENTEE_CAP
  have hc : ((a1 : ℚ)) ≤ ((a2 : ℚ)) := by exact_mod_cast h
  have hd : (a1 : ℚ) / 5 ≤ (a2 : ℚ) / 5 := by linarith
  have hm : max 0 (1 - (a2 : ℚ) / 5) ≤ max 0 (1 - (a1 : ℚ) / 5) :=
    max_le_max (le_refl 0) (by linarith)
  apply min_le_min (le_refl 1)
  nlinarith [hm]

/-! Helper lemmas: evaluation of the example records. -/

theorem round4_eval (k : ℤ) {q : ℚ} (hq : (k : ℚ)/10000 = q) :
    round4 q = q := by
  rw [← hq, round4_int_div]

theorem coverage_zero {a b : Finset String} (h : a ∩ b = ∅) :
    coverage a b = 0 := by
  unfold coverage
  split_ifs with hn
  · rw [h]
    simp
  · rfl

theorem mkScores_ex : mkScores menteeEx mentorEx = bkOnes := by
  have c1 : coverage menteeEx.fields mentorEx.fields = 1 :=
    coverage_full (by decide) (by decide)
  have c2 : coverage menteeEx.available_days mentorEx.available_days = 1 :=
    coverage_full (by decide) (by decide)
  have c3 : coverage menteeEx.time_slots mentorEx.time_slots = 1 :=
    coverage_full (by decide) (by decide)
  have c4 : coverage menteeEx.communication_styles
      mentorEx.communication_styles = 1 :=
    coverage_full (by decide) (by decide)
  have c5 : coverage menteeEx.mentoring_focuses mentorEx.mentoring_focuses = 1 :=
    coverage_full (by decide) (by decide)
  have f1 : frequencyScore menteeEx mentorEx = 1 := by
    unfold frequencyScore
    exact if_pos (by decide)
  have m1 : methodsScore menteeEx mentorEx = 1 := by
    unfold methodsScore
    exact if_pos (by decide)
  unfold mkScores bkOnes
  rw [c1, c2, c3, c4, c5, f1, m1, round4_one]

theorem totalOf_bkOnes : totalOf bkOnes = 1 := by
  unfold totalOf bkOnes W_fields W_frequency W_methods W_communication_styles
    W_mentoring_focuses
  norm_num [round4_one]

theorem compute_ex : compute_match_score menteeEx mentorEx = some (1, bkOnes) := by
  have h := @compute_some_of menteeEx mentorEx (by decide) (by decide)
  rw [mkScores_ex, totalOf_bkOnes] at h
  exact h

theorem compute_gate : compute_match_score menteeEx mentorGate = none := by
  rw [compute_none_iff]
  exact Or.inl ⟨by decide, by decide⟩

theorem mkScores_half : mkScores menteeTwo mentorHalf = bkHalf := by
  have c1 : coverage menteeTwo.fields mentorHalf.fields = 1/2 := by
    unfold coverage
    rw [if_pos (by decide)]
    have h1 : (menteeTwo.fields ∩ mentorHalf.fields).card = 1 := by decide
    have h2 : menteeTwo.fields.card = 2 := by decide
    rw [h1, h2]
    norm_num
  have c2 : coverage menteeTwo.available_days mentorHalf.available_days = 1 :=
    coverage_full (by decide) (by decide)
  have c3 : coverage menteeTwo.time_slots mentorHalf.time_slots = 1 :=
    coverage_full (by decide) (by decide)
  have c4 : coverage menteeTwo.communication_styles
      mentorHalf.communication_styles = 1 :=
    coverage_full (by decide) (by decide)
  have c5 : coverage menteeTwo.mentoring_focuses
      mentorHalf.mentoring_focuses = 1 :=
    coverage_full (by decide) (by decide)
  have f1 : frequencyScore menteeTwo mentorHalf = 1 := by
    unfold frequencyScore
    exact if_pos (by decide)
  have m1 : methodsScore menteeTwo mentorHalf = 1 := by
    unfold methodsScore
    rw [if_neg (by decide)]
    exact if_pos (by decide)
  unfold mkScores bkHalf
  rw [c1, c2, c3, c4, c5, f1, m1, round4_one, round4_half]

theorem totalOf_bkHalf : totalOf bkHalf = 33/40 := by
  unfold totalOf bkHalf W_fields W_frequency W_methods W_communication_styles
    W_mentoring_focuses
  have h : (35:ℚ)/100 * (1/2) + 15/100 * 1 + 15/100 * 1 + 20/100 * 1
      + 15/100 * 1 = 33/40 := by norm_num
  rw [h]
  exact round4_eval 8250 (by norm_num)

theorem compute_half :
    compute_match_score menteeTwo mentorHalf = some (33/40, bkHalf) := by
  have h := @compute_some_of menteeTwo mentorHalf (by decide) (by decide)
  rw [mkScores_half, totalOf_bkHalf] at h
  exact h

theorem mkScores_low : mkScores menteeTwo mentorLow = bkLow := by
  have c1 : coverage menteeTwo.fields mentorLow.fields = 1/2 := by
    unfold coverage
    rw [if_pos (by decide)]
    have h1 : (menteeTwo.fields ∩ mentorLow.fields).card = 1 := by decide
    have h2 : menteeTwo.fields.card = 2 := by decide
    rw [h1, h2]
    norm_num
  have c2 : coverage menteeTwo.available_days mentorLow.available_days = 1 :=
    coverage_full (by decide) (by decide)
  have c3 : coverage menteeTwo.time_slots mentorLow.time_slots = 1 :=
    coverage_full (by decide) (by decide)
  have c4 : coverage menteeTwo.communication_styles
      mentorLow.communication_styles = 0 :=
    coverage_zero (by decide)
  have c5 : coverage menteeTwo.mentoring_focuses
      mentorLow.mentoring_focuses = 0 :=
    coverage_zero (by decide)
  have f1 : frequencyScore menteeTwo mentorLow = 0 := by
    unfold frequencyScore
    exact if_neg (by decide)
  have m1 : methodsScore menteeTwo mentorLow = 0 := by
    unfold methodsScore
    rw [if_neg (by decide)]
    exact if_neg (by decide)
  unfold mkScores bkLow
  rw [c1, c2, c3, c4, c5, f1, m1, round4_one, round4_half, round4_zero]

theorem totalOf_bkLow : totalOf bkLow = 7/40 := by
  unfold totalOf bkLow W_fields W_frequency W_methods W_communication_styles
    W_mentoring_focuses
  have h : (35:ℚ)/100 * (1/2) + 15/100 * 0 + 15/100 * 0 + 20/100 * 0
      + 15/100 * 0 = 7/40 := by norm_num
  rw [h]
  exact round4_eval 1750 (by norm_num)

theorem compute_low :
    compute_match_score menteeTwo mentorLow = some (7/40, bkLow) := by
  have h := @compute_some_of menteeTwo mentorLow (by decide) (by decide)
  rw [mkScores_low, totalOf_bkLow] at h
  exact h

theorem mkScores_thr : mkScores menteeTwo mentorThr = bkThr := by
  have c1 : coverage menteeTwo.fields mentorThr.fields = 0 :=
    coverage_zero (by decide)
  have c2 : coverage menteeTwo.available_days mentorThr.available_days = 1 :=
    coverage_full (by decide) (by decide)
  have c3 : coverage menteeTwo.time_slots mentorThr.time_slots = 1 :=
    coverage_full (by decide) (by decide)
  have c4 : coverage menteeTwo.communication_styles
      mentorThr.communication_styles = 0 :=
    coverage_zero (by decide)
  have c5 : coverage menteeTwo.mentoring_focuses
      mentorThr.mentoring_focuses = 0 :=
    coverage_zero (by decide)
  have f1 : frequencyScore menteeTwo mentorThr = 1 := by
    unfold frequencyScore
    exact if_pos (by decide)
  have m1 : methodsScore menteeTwo mentorThr = 1 := by
    unfold methodsScore
    rw [if_neg (by decide)]
    exact if_pos (by decide)
  unfold mkScores bkThr
  rw [c1, c2, c3, c4, c5, f1, m1, round4_one, round4_zero]

theorem totalOf_bkThr : totalOf bkThr = 3/10 := by
  unfold totalOf bkThr W_fields W_frequency W_methods W_communication_styles
    W_mentoring_focuses
  have h : (35:ℚ)/100 * 0 + 15/100 * 1 + 15/100 * 1 + 20/100 * 0
      + 15/100 * 0 = 3/10 := by norm_num
  rw [h]
  exact round4_eval 3000 (by norm_num)

theorem compute_thr :
    compute_match_score menteeTwo mentorThr = some (3/10, bkThr) := by
  have h := @compute_some_of menteeTwo mentorThr (by decide) (by decide)
  rw [mkScores_thr, totalOf_bkThr] at h
  exact h

theorem boostedScore_one_zero : boostedScore 1 0 = 1 := by
  rw [boostedScore_zero_active]
  norm_num [min_def]

theorem scoreRow_ex : scoreRow menteeEx cnt0 rowEx = some (1, cardEx) := by
  have h := @scoreRow_of_survivor menteeEx cnt0 rowEx mentorEx 1 bkOnes rfl
    (by decide) compute_ex (by norm_num [MIN_MATCH_SCORE])
  rw [show cnt0 rowEx.id = 0 from rfl, boostedScore_one_zero] at h
  exact h

theorem scoreRow_ex2 : scoreRow menteeEx cnt0 rowEx2 = some (1, cardEx2) := by
  have h := @scoreRow_of_survivor menteeEx cnt0 rowEx2 mentorEx 1 bkOnes rfl
    (by decide) compute_ex (by norm_num [MIN_MATCH_SCORE])
  rw [show cnt0 rowEx2.id = 0 from rfl, boostedScore_one_zero] at h
  exact h

/-! Helper lemmas: the batch ranker. -/

theorem get_rec_eq (mentee : MenteeSurvey) (mentors : List MentorRow)
    (cnt : ℕ → ℕ) (limit offset : ℕ) :
    get_mentor_recommendations mentee mentors cnt limit offset =
      ((((sortDesc (mentors.filterMap (scoreRow mentee cnt))).drop
        offset).take limit).map Prod.snd,
       (mentors.filterMap (scoreRow mentee cnt)).length) := by
  unfold get_mentor_recommendations
  split_ifs with h
  · subst h
    simp [sortDesc]
  · rfl

theorem scored_snd_score (mentee : MenteeSurvey) (cnt : ℕ → ℕ)
    (mentors : List MentorRow) :
    ∀ p ∈ mentors.filterMap (scoreRow mentee cnt), p.2.match_score = p.1 := by
  intro p hp
  rw [List.mem_filterMap] at hp
  obtain ⟨row, _, h⟩ := hp
  obtain ⟨d, t, b, _, _, _, _, hp2⟩ := scoreRow_some h
  rw [hp2]

theorem scored_ids_sublist (mentee : MenteeSurvey) (cnt : ℕ → ℕ)
    (mentors : List MentorRow) :
    ((mentors.filterMap (scoreRow mentee cnt)).map
      fun p => p.2.mentor_id) <+ mentors.map MentorRow.id := by
  induction mentors with
  | nil => simp
  | cons r rs ih =>
    rw [List.filterMap_cons, List.map_cons]
    cases h : scoreRow mentee cnt r with
    | none => exact ih.cons r.id
    | some p =>
      obtain ⟨d, t, b, _, _, _, _, hp⟩ := scoreRow_some h
      rw [List.map_cons]
      have hid : p.2.mentor_id = r.id := by rw [hp]
      rw [hid]
      exact ih.cons₂ r.id

theorem sortDesc_perm (l : List (ℚ × MentorRecommendationCard)) :
    sortDesc l ~ l :=
  List.perm_insertionSort scoreRel l

theorem sortDesc_sorted (l : List (ℚ × MentorRecommendationCard)) :
    (sortDesc l).Sorted scoreRel :=
  List.sorted_insertionSort scoreRel l

theorem sorted_ids_nodup (mentee : MenteeSurvey) (cnt : ℕ → ℕ)
    (mentors : List MentorRow) (hnd : (mentors.map MentorRow.id).Nodup) :
    ((sortDesc (mentors.filterMap (scoreRow mentee cnt))).map
      fun p => p.2.mentor_id).Nodup := by
  have h1 : ((mentors.filterMap (scoreRow mentee cnt)).map
      fun p => p.2.mentor_id).Nodup :=
    List.Nodup.sublist (scored_ids_sublist mentee cnt mentors) hnd
  have h2 := (sortDesc_perm (mentors.filterMap (scoreRow mentee cnt))).map
    fun p => p.2.mentor_id
  exact h2.nodup_iff.mpr h1

theorem pages_disjoint {l : List (ℚ × MentorRecommendationCard)}
    (hnd : (l.map fun p => p.2.mentor_id).Nodup) (a b : ℕ) :
    ∀ c ∈ (l.take a).map Prod.snd, c ∉ ((l.drop a).take b).map Prod.snd := by
  intro c hc1 hc2
  rw [List.mem_map] at hc1 hc2
  obtain ⟨p, hp, hpc⟩ := hc1
  obtain ⟨q, hq, hqc⟩ := hc2
  have h1 : c.mentor_id ∈ (l.map fun p => p.2.mentor_id).take a := by
    rw [← List.map_take]
    exact List.mem_map.mpr ⟨p, hp, by rw [hpc]⟩
  have h2 : c.mentor_id ∈ (l.map fun p => p.2.mentor_id).drop a := by
    rw [← List.map_drop]
    exact List.mem_map.mpr ⟨q, List.mem_of_mem_take hq, by rw [hqc]⟩
  have hsplit : ((l.map fun p => p.2.mentor_id).take a ++
      (l.map fun p => p.2.mentor_id).drop a).Nodup := by
    rw [List.take_append_drop]
    exact hnd
  exact (List.nodup_append.mp hsplit).2.2 h1 h2

/-! The claims. -/

/-- C1: for a mentee record and a mentor passing the availability gates, the
total is `round4` of the weighted sum of the five weighted sub-scores of the
breakdown (weights 0.35 / 0.15 / 0.15 / 0.20 / 0.15), while the two
availability sub-scores are computed, rounded, reported in the breakdown,
and contribute nothing to the weighted total. -/
theorem C1_weighted_total (mentee : MenteeSurvey) (mentor : MentorDetails)
    (t : ℚ) (b : MatchScoreBreakdown) (hfe : mentee.fields.Nonempty)
    (h : compute_match_score mentee mentor = some (t, b)) :
    t = round4 (35/100 * b.fields + 15/100 * b.frequency + 15/100 * b.methods
      + 20/100 * b.communication_styles + 15/100 * b.mentoring_focuses)
    ∧ b.available_days =
        round4 (coverage mentee.available_days mentor.available_days)
    ∧ b.time_slots = round4 (coverage mentee.time_slots mentor.time_slots) := by
  obtain ⟨ht, hb⟩ := compute_some h
  subst hb
  subst ht
  exact ⟨rfl, rfl, rfl⟩

/-- C1 witness: `menteeEx` vs `mentorEx` passes the gates and satisfies the
weighted-total equation. -/
theorem C1_witness :
    (1 : ℚ) = round4 (35/100 * bkOnes.fields + 15/100 * bkOnes.frequency
      + 15/100 * bkOnes.methods + 20/100 * bkOnes.communication_styles
      + 15/100 * bkOnes.mentoring_focuses)
    ∧ bkOnes.available_days =
        round4 (coverage menteeEx.available_days mentorEx.available_days)
    ∧ bkOnes.time_slots =
        round4 (coverage menteeEx.time_slots mentorEx.time_slots) :=
  C1_weighted_total menteeEx mentorEx 1 bkOnes (by decide) compute_ex

/-- C2: the single-pair scorer returns `none` exactly when an availability
hard gate fails (mentee set non-empty with empty intersection); the batch
ranker skips a mentor with no profile, an empty `fields` set, or a
hard-fail; empty mentee availability sets satisfy the gates vacuously. -/
theorem C2_hard_fail (mentee : MenteeSurvey) (mentor : MentorDetails) :
    (compute_match_score mentee mentor = none ↔
      (mentee.available_days.Nonempty ∧
        mentee.available_days ∩ mentor.available_days = ∅) ∨
      (mentee.time_slots.Nonempty ∧
        mentee.time_slots ∩ mentor.time_slots = ∅))
    ∧ (∀ (cnt : ℕ → ℕ) (row : MentorRow), row.mentor_details = none →
        scoreRow mentee cnt row = none)
    ∧ (∀ (cnt : ℕ → ℕ) (row : MentorRow) (d : MentorDetails),
        row.mentor_details = some d → d.fields = ∅ →
        scoreRow mentee cnt row = none)
    ∧ (∀ (cnt : ℕ → ℕ) (row : MentorRow) (d : MentorDetails),
        row.mentor_details = some d → compute_match_score mentee d = none →
        scoreRow mentee cnt row = none)
    ∧ (mentee.available_days = ∅ → mentee.time_slots = ∅ →
        ∃ r, compute_match_score mentee mentor = some r) := by
  refine ⟨compute_none_iff mentee mentor, ?_, ?_, ?_, ?_⟩
  · intro cnt row hd
    exact scoreRow_of_none hd
  · intro cnt row d hd hf
    exact scoreRow_of_empty_fields hd hf
  · intro cnt row d hd hc
    exact scoreRow_of_hard_fail hd hc
  · intro h1 h2
    refine ⟨_, compute_some_of ?_ ?_⟩
    · rintro ⟨hne, _⟩
      rw [h1] at hne
      exact Finset.not_nonempty_empty hne
    · rintro ⟨hne, _⟩
      rw [h2] at hne
      exact Finset.not_nonempty_empty hne

/-- C2 witness: the day-disjoint mentor hard-fails, and a mentor without a
profile is skipped by the ranker. -/
theorem C2_witness :
    compute_match_score menteeEx mentorGate = none ∧
    scoreRow menteeEx cnt0 rowNoDetails = none :=
  ⟨(C2_hard_fail menteeEx mentorGate).1.mpr (Or.inl ⟨by decide, by decide⟩),
   (C2_hard_fail menteeEx mentorGate).2.1 cnt0 rowNoDetails rfl⟩

/-- C7: the fields sub-score is the rounded mentee-coverage ratio
`|mentee.fields ∩ mentor.fields| / |mentee.fields|`; full coverage gives 1.0
regardless of extra mentor fields. -/
theorem C7_fields_coverage (mentee : MenteeSurvey) (mentor : MentorDetails)
    (t : ℚ) (b : MatchScoreBreakdown) (hfe : mentee.fields.Nonempty)
    (h : compute_match_score mentee mentor = some (t, b)) :
    b.fields = round4 (((mentee.fields ∩ mentor.fields).card : ℚ)
        / (mentee.fields.card : ℚ))
    ∧ (mentee.fields ⊆ mentor.fields → b.fields = 1) := by
  obtain ⟨_, hb⟩ := compute_some h
  subst hb
  constructor
  · show round4 (coverage mentee.fields mentor.fields) = _
    unfold coverage
    rw [if_pos hfe]
  · intro hsub
    show round4 (coverage mentee.fields mentor.fields) = 1
    rw [coverage_full hfe hsub, round4_one]

/-- C7 witness: `menteeTwo` (two desired fields) vs `mentorHalf` (covers
one): the fields sub-score is the rounded covered fraction. -/
theorem C7_witness :
    bkHalf.fields = round4 (((menteeTwo.fields ∩ mentorHalf.fields).card : ℚ)
        / (menteeTwo.fields.card : ℚ))
    ∧ (menteeTwo.fields ⊆ mentorHalf.fields → bkHalf.fields = 1) :=
  C7_fields_coverage menteeTwo mentorHalf (33/40) bkHalf (by decide)
    compute_half

/-- C8: the methods sub-score is 1.0 whenever FLEXIBLE occurs on either
side; otherwise it is 1.0 iff the two methods sets intersect and 0.0 iff
they are disjoint; it is always binary. -/
theorem C8_methods_wildcard (mentee : MenteeSurvey) (mentor : MentorDetails)
    (t : ℚ) (b : MatchScoreBreakdown)
    (h : compute_match_score mentee mentor = some (t, b)) :
    (("FLEXIBLE" ∈ mentee.methods ∨ "FLEXIBLE" ∈ mentor.methods) →
      b.methods = 1)
    ∧ (¬("FLEXIBLE" ∈ mentee.methods ∨ "FLEXIBLE" ∈ mentor.methods) →
        ((mentee.methods ∩ mentor.methods).Nonempty → b.methods = 1)
        ∧ (mentee.methods ∩ mentor.methods = ∅ → b.methods = 0))
    ∧ (b.methods = 0 ∨ b.methods = 1) := by
  obtain ⟨_, hb⟩ := compute_some h
  subst hb
  refine ⟨?_, ?_, ?_⟩
  · intro hf
    show round4 (methodsScore mentee mentor) = 1
    unfold methodsScore
    rw [if_pos hf, round4_one]
  · intro hnf
    constructor
    · intro hne
      show round4 (methodsScore mentee mentor) = 1
      unfold methodsScore
      rw [if_neg hnf, if_pos hne, round4_one]
    · intro hemp
      show round4 (methodsScore mentee mentor) = 0
      unfold methodsScore
      rw [if_neg hnf, if_neg (by rw [hemp]; exact Finset.not_nonempty_empty),
        round4_zero]
  · rcases methodsScore_cases mentee mentor with hm | hm
    · exact Or.inl (by show round4 (methodsScore mentee mentor) = 0
                       rw [hm, round4_zero])
    · exact Or.inr (by show round4 (methodsScore mentee mentor) = 1
                       rw [hm, round4_one])

/-- C8 witness: `menteeEx.methods = {FLEXIBLE}` vs `mentorEx.methods =
{OFFLINE}` gives a methods sub-score of 1.0. -/
theorem C8_witness : bkOnes.methods = 1 :=
  (C8_methods_wildcard menteeEx mentorEx 1 bkOnes compute_ex).1
    (Or.inl (by decide))

/-- C3: a surviving mentor's reported match_score is
`min(1, t + 0.10 * max(0, 1 - a/5))` over the pre-boost total `t` and
active-mentee count `a`; `a = 0` gives `min(1, t + 0.10)`, `a ≥ 5` gives
exactly `t`, and the boosted score never increases with `a`. -/
theorem C3_new_mentor_boost (mentee : MenteeSurvey) (cnt : ℕ → ℕ)
    (row : MentorRow) (d : MentorDetails) (t : ℚ) (b : MatchScoreBreakdown)
    (p : ℚ × MentorRecommendationCard)
    (hd : row.mentor_details = some d)
    (hc : compute_match_score mentee d = some (t, b))
    (hp : scoreRow mentee cnt row = some p) :
    p.2.match_score = min 1 (t + 10/100 * max 0 (1 - (cnt row.id : ℚ) / 5))
    ∧ (cnt row.id = 0 → p.2.match_score = min 1 (t + 10/100))
    ∧ (5 ≤ cnt row.id → p.2.match_score = t)
    ∧ (∀ (u : ℚ) (a1 a2 : ℕ), a1 ≤ a2 →
        boostedScore u a2 ≤ boostedScore u a1) := by
  obtain ⟨d', t', b', hd', hf', hc', hmin', hp'⟩ := scoreRow_some hp
  rw [hd] at hd'
  injection hd' with hdd
  subst hdd
  rw [hc] at hc'
  injection hc' with hc2
  injection hc2 with hct hcb
  subst hct
  subst hcb
  have hscore : p.2.match_score = boostedScore t (cnt row.id) := by rw [hp']
  have htu := compute_total_unit hc
  refine ⟨?_, ?_, ?_, ?_⟩
  · rw [hscore]
    unfold boostedScore NEW_MENTOR_BOOST MENTEE_CAP
    rfl
  · intro ha
    rw [hscore, ha, boostedScore_zero_active]
  · intro ha
    rw [hscore, boostedScore_at_cap htu.2 ha]
  · intro u a1 a2 ha
    exact boostedScore_antitone u ha

/-- C3 witness: the perfect-match mentor with zero active mentees. -/
theorem C3_witness :
    cardEx.match_score =
      min 1 (1 + 10/100 * max 0 (1 - (cnt0 rowEx.id : ℚ) / 5))
    ∧ (cnt0 rowEx.id = 0 → cardEx.match_score = min 1 (1 + 10/100))
    ∧ (5 ≤ cnt0 rowEx.id → cardEx.match_score = 1)
    ∧ (∀ (u : ℚ) (a1 a2 : ℕ), a1 ≤ a2 →
        boostedScore u a2 ≤ boostedScore u a1) :=
  C3_new_mentor_boost menteeEx cnt0 rowEx mentorEx 1 bkOnes (1, cardEx) rfl
    compute_ex scoreRow_ex

/-- C4: a mentor whose pre-boost total is strictly below 0.3 is excluded
from the scored list, the output page and the total count; a mentor at or
above the threshold (fields non-empty) survives with the boost applied to
the pre-boost total afterwards. -/
theorem C4_min_score_filter (mentee : MenteeSurvey) (cnt : ℕ → ℕ)
    (row : MentorRow) (d : MentorDetails) (t : ℚ) (b : MatchScoreBreakdown)
    (hd : row.mentor_details = some d)
    (hc : compute_match_score mentee d = some (t, b)) :
    (t < 3/10 → scoreRow mentee cnt row = none ∧
      ∀ (mentors : List MentorRow) (limit offset : ℕ),
        get_mentor_recommendations mentee (row :: mentors) cnt limit offset
          = get_mentor_recommendations mentee mentors cnt limit offset)
    ∧ (3/10 ≤ t → d.fields ≠ ∅ →
        scoreRow mentee cnt row = some (boostedScore t (cnt row.id),
          ⟨row.id, boostedScore t (cnt row.id), b⟩)
        ∧ ∀ mentors : List MentorRow, row ∈ mentors →
            (boostedScore t (cnt row.id),
              (⟨row.id, boostedScore t (cnt row.id), b⟩ :
                MentorRecommendationCard)) ∈
              mentors.filterMap (scoreRow mentee cnt)) := by
  constructor
  · intro ht
    have hnone : scoreRow mentee cnt row = none := scoreRow_of_low hd hc ht
    refine ⟨hnone, ?_⟩
    intro mentors limit offset
    rw [get_rec_eq, get_rec_eq]
    simp only [List.filterMap_cons, hnone]
  · intro ht hf
    have hs := @scoreRow_of_survivor mentee cnt row d t b hd hf hc
      (not_lt.mpr ht)
    exact ⟨hs, fun mentors hrow => List.mem_filterMap.mpr ⟨row, hrow, hs⟩⟩

/-- C4 witness: `mentorLow` (total 0.175) is dropped entirely;
`mentorThr` (total exactly 0.3) is kept. -/
theorem C4_witness :
    (scoreRow menteeTwo cnt0 rowLow = none ∧
      ∀ (mentors : List MentorRow) (limit offset : ℕ),
        get_mentor_recommendations menteeTwo (rowLow :: mentors) cnt0 limit
            offset
          = get_mentor_recommendations menteeTwo mentors cnt0 limit offset)
    ∧ scoreRow menteeTwo cnt0 rowThr =
        some (boostedScore (3/10) (cnt0 rowThr.id),
          ⟨rowThr.id, boostedScore (3/10) (cnt0 rowThr.id), bkThr⟩) :=
  ⟨(C4_min_score_filter menteeTwo cnt0 rowLow mentorLow (7/40) bkLow rfl
      compute_low).1 (by norm_num),
   ((C4_min_score_filter menteeTwo cnt0 rowThr mentorThr (3/10) bkThr rfl
      compute_thr).2 (by norm_num) (by decide)).1⟩

/-- C5: every per-dimension sub-score, the weighted total, and the boosted
match_score lie in [0, 1]. -/
theorem C5_range_invariant (mentee : MenteeSurvey) (mentor : MentorDetails)
    (t : ℚ) (b : MatchScoreBreakdown) (hfe : mentee.fields.Nonempty)
    (h : compute_match_score mentee mentor = some (t, b)) :
    (0 ≤ b.fields ∧ b.fields ≤ 1) ∧ (0 ≤ b.frequency ∧ b.frequency ≤ 1)
    ∧ (0 ≤ b.available_days ∧ b.available_days ≤ 1)
    ∧ (0 ≤ b.time_slots ∧ b.time_slots ≤ 1)
    ∧ (0 ≤ b.methods ∧ b.methods ≤ 1)
    ∧ (0 ≤ b.communication_styles ∧ b.communication_styles ≤ 1)
    ∧ (0 ≤ b.mentoring_focuses ∧ b.mentoring_focuses ≤ 1)
    ∧ (0 ≤ t ∧ t ≤ 1)
    ∧ (∀ a : ℕ, 0 ≤ boostedScore t a ∧ boostedScore t a ≤ 1) := by
  have htu := compute_total_unit h
  obtain ⟨_, hb⟩ := compute_some h
  subst hb
  have hu := mkScores_unit mentee mentor
  refine ⟨hu.1, hu.2.1, hu.2.2.1, hu.2.2.2.1, hu.2.2.2.2.1, hu.2.2.2.2.2.1,
    hu.2.2.2.2.2.2, htu, ?_⟩
  intro a
  exact ⟨boostedScore_nonneg htu.1 a, boostedScore_le_one t a⟩

/-- C5 witness: the ranges at the perfect-match pair. -/
theorem C5_witness :
    (0 ≤ bkOnes.fields ∧ bkOnes.fields ≤ 1) ∧
    (0 ≤ (1 : ℚ) ∧ (1 : ℚ) ≤ 1) :=
  ⟨(C5_range_invariant menteeEx mentorEx 1 bkOnes (by decide) compute_ex).1,
   (C5_range_invariant menteeEx mentorEx 1 bkOnes (by decide)
      compute_ex).2.2.2.2.2.2.2.1⟩

/-- C10: every recommendation card in the ranker's output page has
match_score at least the 0.3 quality floor. -/
theorem C10_floor_invariant (mentee : MenteeSurvey) (mentors : List MentorRow)
    (cnt : ℕ → ℕ) (limit offset : ℕ) (c : MentorRecommendationCard)
    (hc : c ∈ (get_mentor_recommendations mentee mentors cnt limit offset).1) :
    3/10 ≤ c.match_score := by
  rw [get_rec_eq] at hc
  rw [List.mem_map] at hc
  obtain ⟨p, hp, hpc⟩ := hc
  have hp1 : p ∈ sortDesc (mentors.filterMap (scoreRow mentee cnt)) :=
    List.mem_of_mem_drop (List.mem_of_mem_take hp)
  have hp2 : p ∈ mentors.filterMap (scoreRow mentee cnt) :=
    (sortDesc_perm _).subset hp1
  rw [List.mem_filterMap] at hp2
  obtain ⟨row, _, hrow⟩ := hp2
  obtain ⟨d, t, b, hd, hf, hcm, hmin, hp'⟩ := scoreRow_some hrow
  rw [← hpc, hp']
  show 3/10 ≤ boostedScore t (cnt row.id)
  have htu := compute_total_unit hcm
  have h1 : t ≤ boostedScore t (cnt row.id) := le_boostedScore htu.2 _
  have h2 : MIN_MATCH_SCORE ≤ t := not_lt.mp hmin
  have h3 : MIN_MATCH_SCORE = 3/10 := rfl
  linarith [h2, h1, h3.ge]

/-- Normal-form evaluation of the one-mentor ranker run. -/
theorem get_rec_ex :
    get_mentor_recommendations menteeEx [rowEx] cnt0 10 0 = ([cardEx], 1) := by
  rw [get_rec_eq]
  simp only [List.filterMap_cons, List.filterMap_nil, scoreRow_ex]
  rfl

/-- C10 witness: the perfect-match card in the one-mentor run. -/
theorem C10_witness : (3 : ℚ)/10 ≤ cardEx.match_score :=
  C10_floor_invariant menteeEx [rowEx] cnt0 10 0 cardEx
    (by rw [get_rec_ex]; exact List.mem_singleton.mpr rfl)

/-- Evaluation of the two-identical-mentors scored list. -/
theorem scored_ex_pair :
    List.filterMap (scoreRow menteeEx cnt0) [rowEx, rowEx2] =
      [(1, cardEx), (1, cardEx2)] := by
  simp only [List.filterMap_cons, List.filterMap_nil, scoreRow_ex, scoreRow_ex2]

/-- C6: the ranked output page is sorted by match_score in non-increasing
order, and two equal-scored surviving candidates keep their relative input
order in the sorted list (stable sort, no secondary key). -/
theorem C6_stable_descending (mentee : MenteeSurvey) (mentors : List MentorRow)
    (cnt : ℕ → ℕ) (limit offset : ℕ)
    (a b : ℚ × MentorRecommendationCard) (hab : a.1 = b.1)
    (hsub : [a, b] <+ mentors.filterMap (scoreRow mentee cnt)) :
    ((get_mentor_recommendations mentee mentors cnt limit offset).1.Sorted
      fun c d => d.match_score ≤ c.match_score)
    ∧ [a, b] <+ sortDesc (mentors.filterMap (scoreRow mentee cnt)) := by
  constructor
  · rw [get_rec_eq]
    have hs : (sortDesc (mentors.filterMap (scoreRow mentee cnt))).Sorted
        scoreRel := sortDesc_sorted _
    have hsubl : ((sortDesc (mentors.filterMap
        (scoreRow mentee cnt))).drop offset).take limit <+
        sortDesc (mentors.filterMap (scoreRow mentee cnt)) :=
      (List.take_sublist _ _).trans (List.drop_sublist _ _)
    have hslice := List.Pairwise.sublist hsubl hs
    show ((((sortDesc (mentors.filterMap (scoreRow mentee cnt))).drop
      offset).take limit).map Prod.snd).Pairwise
        fun c d => d.match_score ≤ c.match_score
    rw [List.pairwise_map]
    have hmem : ∀ p ∈ ((sortDesc (mentors.filterMap
        (scoreRow mentee cnt))).drop offset).take limit,
        p.2.match_score = p.1 := by
      intro p hp
      exact scored_snd_score mentee cnt mentors p
        ((sortDesc_perm _).subset
          (List.mem_of_mem_drop (List.mem_of_mem_take hp)))
    refine List.Pairwise.imp_of_mem ?_ hslice
    intro x y hx hy hxy
    rw [hmem x hx, hmem y hy]
    exact hxy
  · exact List.pair_sublist_insertionSort hab.ge hsub

/-- C6 witness: two mentors with identical profiles (hence equal boosted
scores) keep their input order through the sort. -/
theorem C6_witness :
    ((get_mentor_recommendations menteeEx [rowEx, rowEx2] cnt0 10 0).1.Sorted
      fun c d => d.match_score ≤ c.match_score)
    ∧ [((1 : ℚ), cardEx), ((1 : ℚ), cardEx2)] <+
        sortDesc (List.filterMap (scoreRow menteeEx cnt0) [rowEx, rowEx2]) :=
  C6_stable_descending menteeEx [rowEx, rowEx2] cnt0 10 0 (1, cardEx)
    (1, cardEx2) rfl (by rw [scored_ex_pair])

/-- C9: the page is `sorted_survivors[offset : offset+limit]` and the total
is the pre-pagination survivor count; consecutive pages are disjoint and
concatenate to the doubled page; an offset beyond the total yields an empty
page; an empty mentor pool yields `([], 0)`. -/
theorem C9_pagination (mentee : MenteeSurvey) (mentors : List MentorRow)
    (cnt : ℕ → ℕ) (a b limit offset : ℕ)
    (hnd : (mentors.map MentorRow.id).Nodup) :
    (get_mentor_recommendations mentee mentors cnt limit offset).1
      = (((sortDesc (mentors.filterMap (scoreRow mentee cnt))).drop
          offset).take limit).map Prod.snd
    ∧ (get_mentor_recommendations mentee mentors cnt limit offset).2
      = (mentors.filterMap (scoreRow mentee cnt)).length
    ∧ (get_mentor_recommendations mentee mentors cnt a 0).1 ++
        (get_mentor_recommendations mentee mentors cnt b a).1
      = (get_mentor_recommendations mentee mentors cnt (a + b) 0).1
    ∧ (∀ c ∈ (get_mentor_recommendations mentee mentors cnt a 0).1,
        c ∉ (get_mentor_recommendations mentee mentors cnt b a).1)
    ∧ ((get_mentor_recommendations mentee mentors cnt limit offset).2 ≤
          offset →
        (get_mentor_recommendations mentee mentors cnt limit offset).1 = [])
    ∧ get_mentor_recommendations mentee [] cnt limit offset = ([], 0) := by
  refine ⟨?_, ?_, ?_, ?_, ?_, ?_⟩
  · rw [get_rec_eq]
  · rw [get_rec_eq]
  · rw [get_rec_eq, get_rec_eq, get_rec_eq]
    simp only [List.drop_zero]
    rw [List.take_add, List.map_append]
  · rw [get_rec_eq, get_rec_eq]
    simp only [List.drop_zero]
    exact pages_disjoint (sorted_ids_nodup mentee cnt mentors hnd) a b
  · rw [get_rec_eq]
    intro hlen
    have hlen2 : (sortDesc (mentors.filterMap (scoreRow mentee cnt))).length
        ≤ offset := by
      rw [(sortDesc_perm _).length_eq]
      exact hlen
    rw [List.drop_eq_nil_of_le hlen2]
    simp
  · rfl

/-- C9 witness: the two-mentor run has total 2 and the empty pool yields
`([], 0)`. -/
theorem C9_witness :
    (get_mentor_recommendations menteeEx [rowEx, rowEx2] cnt0 10 0).2
      = (List.filterMap (scoreRow menteeEx cnt0) [rowEx, rowEx2]).length
    ∧ get_mentor_recommendations menteeEx [] cnt0 10 0 = ([], 0) :=
  ⟨(C9_pagination menteeEx [rowEx, rowEx2] cnt0 1 1 10 0 (by decide)).2.1,
   (C9_pagination menteeEx [rowEx, rowEx2] cnt0 1 1 10 0
      (by decide)).2.2.2.2.2⟩

end Plimate
